import Mathlib

/-!
Verification development for the `audio2score` pipeline
(`src/alt/audio2score.py`): a shallow embedding of the pipeline
orchestration, its path-derivation contract, and its fallback/resume
error policy, together with theorems checking the specification's
clauses against the embedded code.

Modelling conventions:
* A filesystem path is a directory label plus a file name, both plain
  character lists; `expanduser().resolve()` is not modelled (paths are
  taken as already resolved), directories are opaque labels.
* The filesystem is the list of paths of existing files; `sf.write`
  contributes the written path (its waveform contents are returned by
  the embedded `preprocess_audio` so properties about the written data
  remain statable).
* Machine floats of the waveform become exact rationals.
* Each external effect (librosa.load, basic_pitch.predict_and_save,
  subprocess.run of the MuseScore CLI, music21 parse/write) is an
  oracle field of `Env`; a Python exception becomes an `Except`/result
  value, and `SystemExit`/uncaught exceptions become the `Err` type with
  exit code 1, mirroring CPython's behaviour for `SystemExit(str)`.
* Log output (`print(..., file=sys.stderr)`) is modelled as a trace of
  `Ev` events returned alongside each function's result.
-/

namespace AudioToScore

/-- A file name, as the list of its characters (Python `str`). -/
abbrev Name := List Char

/-- Index of the last occurrence of `c` in the list (Python `str.rfind`),
`none` when absent. -/
def lastIdx (c : Char) : List Char → Option Nat
  | [] => none
  | a :: t =>
    match lastIdx c t with
    | some i => some (i + 1)
    | none => if a = c then some 0 else none

/-- The index at which `pathlib.PurePath.suffix` starts: CPython computes
`i = name.rfind(".")` and uses it only when `0 < i < len(name) - 1`
(over the integers; for a name containing a dot `len(name) ≥ 1`, so the
bound is written `i + 1 < name.length` over ℕ). -/
def pySuffixIdx (name : Name) : Option Nat :=
  match lastIdx '.' name with
  | some i => if 0 < i ∧ i + 1 < name.length then some i else none
  | none => none

/-- `pathlib.PurePath.stem`: the file name with its (final) suffix removed. -/
def pyStem (name : Name) : Name :=
  match pySuffixIdx name with
  | some i => name.take i
  | none => name

/-- A filesystem path: directory label and file name. -/
structure FsPath where
  dir : List Char
  name : Name
deriving DecidableEq

/-- `PurePath.with_suffix(suf)`: same directory, the stem with the new
suffix appended (`suf` carries its leading dot, as in the source's
`with_suffix(".normalized.wav")`). -/
def withSuffix (p : FsPath) (suf : Name) : FsPath :=
  ⟨p.dir, pyStem p.name ++ suf⟩

/-- The filesystem as the list of paths of the files that exist. -/
abbrev Fs := List FsPath

/-- Peak amplitude `np.max(np.abs(y))` of a waveform (the source only uses
it on a non-empty `y`, where the fold's `0` base is absorbed because every
`|v|` is non-negative). -/
def maxAbs (y : List ℚ) : ℚ :=
  y.foldr (fun v acc => max |v| acc) 0

/-- The amplitude-normalisation step of `preprocess_audio`:
`peak = np.max(np.abs(y)); if peak > 0: y = 0.95 * y / peak`. -/
def normalizeWave (y : List ℚ) : List ℚ :=
  let peak := maxAbs y
  if 0 < peak then y.map (fun v => (95 / 100 : ℚ) * v / peak) else y

/-- Outcome of `subprocess.run(cmd, check=True)` on the MuseScore CLI:
the executable is absent (`FileNotFoundError`), or the process ran and
exited with the given return code (negative for a termination signal;
`check=True` raises `CalledProcessError` exactly when it is non-zero). -/
inductive MuseRes where
  | notFound
  | exited (code : Int)
deriving DecidableEq

/-- Stderr log / control events emitted by the embedded functions. -/
inductive Ev where
  | museInvoke (cmd : List Char) (input output : FsPath)
  | warnMuseNotFound (cmd : List Char)
  | warnMuseFailed (code : Int)
  | m21Fallback (midi : FsPath)
  | preprocessRun (input : FsPath)
  | transcribeRun (wav : FsPath)
deriving DecidableEq

/-- Every Python exception surface of the script: `ValueError` on empty
audio, `RuntimeError` when basic_pitch cannot be imported,
`FileNotFoundError` when no MIDI output is found, the two `SystemExit`
aborts of `main`, and an uncaught exception from the music21 fallback.
Each aborts the process with a non-zero exit code. -/
inductive Err where
  | emptyAudio (input : FsPath)
  | bpUnavailable
  | midiMissing (wav : FsPath)
  | inputNotFound (input : FsPath)
  | resumeMidiMissing (expected : FsPath)
  | m21Error
deriving DecidableEq

/-- The external world: each opaque collaborator of the script as an
oracle. `predict` is the filesystem effect of
`basic_pitch.inference.predict_and_save`; `m21parse`/`m21write` are
`music21.converter.parse` and `score.write` (the opaque in-memory score
object is a number), `.error` meaning the call raised. -/
structure Env where
  load : FsPath → List ℚ
  bpAvailable : Bool
  predict : FsPath → List Char → Fs → Fs
  muse : List Char → FsPath → FsPath → MuseRes
  m21parse : FsPath → Except Unit Nat
  m21write : Nat → FsPath → Except Unit Unit

/-- The suffix `".normalized.wav"` used by `preprocess_audio` and by the
`--score-only` branch of `main`. -/
def nrmWavSuffix : Name := (".normalized.wav").data

/-- `input_path.with_suffix(".normalized.wav")`: the NormalizedAudio path,
a sibling of the input. -/
def normalizedDest (input : FsPath) : FsPath :=
  withSuffix input nrmWavSuffix

/-- `output_dir / f"{stem}_basic_pitch.mid"`: the expected Transcription
path for a given stem. -/
def preferredOf (outDir : List Char) (stem : Name) : FsPath :=
  ⟨outDir, stem ++ ("_basic_pitch.mid").data⟩

/-- The Transcription path the Transcriber expects for a given
NormalizedAudio path. -/
def preferredMidi (outDir : List Char) (wav : FsPath) : FsPath :=
  preferredOf outDir (pyStem wav.name)

/-- `output_dir / f"{midi_path.stem}.musicxml"`: the InterchangeScore path. -/
def xmlDest (outDir : List Char) (midi : FsPath) : FsPath :=
  ⟨outDir, pyStem midi.name ++ (".musicxml").data⟩

/-- `output_dir / f"{midi_path.stem}.pdf"`: the RenderedDocument path. -/
def pdfDest (outDir : List Char) (midi : FsPath) : FsPath :=
  ⟨outDir, pyStem midi.name ++ (".pdf").data⟩

/-- `preprocess_audio(input_path)`: load (via the oracle), fail on an empty
waveform, normalize the amplitude, write `input.with_suffix(".normalized.wav")`.
Returns the output path, the waveform handed to `sf.write`, and the updated
filesystem. -/
def preprocess_audio (env : Env) (fs : Fs) (input : FsPath) :
    Except Err (FsPath × List ℚ × Fs) :=
  let y := env.load input
  if y.length = 0 then .error (.emptyAudio input)
  else
    let out := normalizedDest input
    .ok (out, normalizeWave y, out :: fs)

/-- The four extensions basic_pitch might emit: `("mid", "npz", "csv", "wav")`. -/
def bpExts : List Name := [("mid").data, ("npz").data, ("csv").data, ("wav").data]

/-- `output_dir / f"{stem}_basic_pitch.{ext}"`: one potentially conflicting
stale artifact. -/
def bpArtifact (outDir : List Char) (stem : Name) (ext : Name) : FsPath :=
  ⟨outDir, stem ++ ("_basic_pitch.").data ++ ext⟩

/-- The pre-invocation cleanup loop of `run_basic_pitch`: for each of the
four extensions, `if p.exists(): p.unlink()` — i.e. remove each such path
from the filesystem. -/
def bpCleanup (fs : Fs) (outDir : List Char) (stem : Name) : Fs :=
  fs.filter (fun p => decide (∀ e ∈ bpExts, p ≠ bpArtifact outDir stem e))

/-- Whether a name matches the glob pattern `f"{stem}*.mid"`: the stem is a
prefix and the remainder ends in `".mid"`. -/
def globMatchMid (stem : Name) (name : Name) : Bool :=
  stem.isPrefixOf name && (".mid").data.isSuffixOf (name.drop stem.length)

/-- Name order used by `sorted(output_dir.glob(...))`: paths in one
directory compare by their name strings, character by character. -/
def nameLe : Name → Name → Bool
  | [], _ => true
  | _ :: _, [] => false
  | a :: s, b :: t => if a = b then nameLe s t else decide (a < b)

/-- `sorted(output_dir.glob(f"{stem}*.mid"))`: the matching files of the
output directory in name order (`sorted` on paths of one directory
compares their name strings). -/
def globCandidates (fs2 : Fs) (outDir : List Char) (stem : Name) : List FsPath :=
  (fs2.filter (fun p => decide (p.dir = outDir) && globMatchMid stem p.name)
    ).insertionSort (fun a b => nameLe a.name b.name = true)

/-- The post-invocation location logic of `run_basic_pitch`: return the
exact expected name if it exists, otherwise the first (sorted) match of
the glob `f"{stem}*.mid"` in the output directory, otherwise raise
`FileNotFoundError`. -/
def bpLocate (fs2 : Fs) (wav : FsPath) (outDir : List Char) (stem : Name) :
    Except Err (FsPath × Fs) :=
  let preferred := preferredOf outDir stem
  if preferred ∈ fs2 then .ok (preferred, fs2)
  else
    match globCandidates fs2 outDir stem with
    | [] => .error (.midiMissing wav)
    | c :: _ => .ok (c, fs2)

/-- `run_basic_pitch(wav_path, output_dir)`: fail if basic_pitch cannot be
imported; delete the conflicting stale artifacts; run the external
capability (the `predict` oracle transforms the cleaned filesystem); then
locate the produced MIDI. `output_dir.mkdir` has no effect on the file
model. -/
def run_basic_pitch (env : Env) (fs : Fs) (wav : FsPath) (outDir : List Char) :
    Except Err (FsPath × Fs) :=
  if env.bpAvailable = false then .error .bpUnavailable
  else
    let stem := pyStem wav.name
    let fs2 := env.predict wav outDir (bpCleanup fs outDir stem)
    bpLocate fs2 wav outDir stem

/-- `run_musescore_convert(input_path, output_path, musescore_cmd)`:
invoke the CLI; `FileNotFoundError` and `CalledProcessError` are each
caught, warned about and turned into `false`; exit status 0 yields
`true`. The function never consults the filesystem, so the result is
independent of whether the output file exists, and it is total (never
raises). -/
def run_musescore_convert (env : Env) (input output : FsPath) (cmd : List Char) :
    Bool × List Ev :=
  let invoke := Ev.museInvoke cmd input output
  match env.muse cmd input output with
  | .notFound => (false, [invoke, .warnMuseNotFound cmd])
  | .exited c => if c = 0 then (true, [invoke]) else (false, [invoke, .warnMuseFailed c])

/-- `midi_to_musicxml(midi_path, musicxml_path, musescore_cmd)`: primary
strategy is the MuseScore CLI; only when it fails, fall back to music21
(`converter.parse` then `score.write`), whose exceptions propagate. -/
def midi_to_musicxml (env : Env) (midi xml : FsPath) (cmd : List Char) :
    Except Err FsPath × List Ev :=
  match run_musescore_convert env midi xml cmd with
  | (true, evs) => (.ok xml, evs)
  | (false, evs) =>
    let evs2 := evs ++ [Ev.m21Fallback midi]
    match env.m21parse midi with
    | .error _ => (.error .m21Error, evs2)
    | .ok score =>
      match env.m21write score xml with
      | .error _ => (.error .m21Error, evs2)
      | .ok _ => (.ok xml, evs2)

/-- `musicxml_to_pdf(musicxml_path, pdf_path, musescore_cmd)`: best-effort
rendering; on failure return `none` instead of raising. -/
def musicxml_to_pdf (env : Env) (xml pdf : FsPath) (cmd : List Char) :
    Option FsPath × List Ev :=
  match run_musescore_convert env xml pdf cmd with
  | (ok, evs) => (if ok then some pdf else none, evs)

/-- The parsed CLI arguments of `main` (the `--backend` choice has a single
admissible value and selects nothing, so it is not carried). -/
structure Args where
  audio : FsPath
  outputDir : List Char
  musescoreCmd : List Char
  noPdf : Bool
  scoreOnly : Bool

/-- One line of the final report printed by `main`. -/
inductive ReportLine where
  | inputLine (p : FsPath)
  | normalizedLine (p : FsPath)
  | midiLine (p : FsPath)
  | musicxmlLine (p : FsPath)
  | pdfLine (p : FsPath)
  | pdfNotGenerated
deriving DecidableEq

/-- What a completed run of `main` returns: the printed report and the
final filesystem (exit code 0). -/
structure RunResult where
  report : List ReportLine
  fs : Fs
deriving DecidableEq

/-- Stages 3 and 4 of `main` (lines 239-263): MIDI → MusicXML, optional
MusicXML → PDF, then the final report. Shared verbatim by the full-run
and `--score-only` entry states. -/
def convertAndRender (env : Env) (args : Args) (fs : Fs) (input : FsPath)
    (normalized : Option FsPath) (midi : FsPath) (evs0 : List Ev) :
    Except Err RunResult × List Ev :=
  match midi_to_musicxml env midi (xmlDest args.outputDir midi) args.musescoreCmd with
  | (.error e, evs) => (.error e, evs0 ++ evs)
  | (.ok _, evs) =>
    let pr :=
      if args.noPdf then (none, [])
      else musicxml_to_pdf env (xmlDest args.outputDir midi)
        (pdfDest args.outputDir midi) args.musescoreCmd
    let report :=
      [ReportLine.inputLine input]
        ++ (match normalized with
            | some n => [ReportLine.normalizedLine n]
            | none => [])
        ++ [ReportLine.midiLine midi,
            ReportLine.musicxmlLine (xmlDest args.outputDir midi)]
        ++ (match pr.1 with
            | some p => [ReportLine.pdfLine p]
            | none => [ReportLine.pdfNotGenerated])
    (.ok ⟨report, fs⟩, evs0 ++ evs ++ pr.2)

/-- `main(argv)`: input-existence check, then either the `--score-only`
resume state (recompute the derived paths, verify the Transcription
exists) or the full-run state (Preprocessor then Transcriber), then
stages 3-4 via `convertAndRender`. -/
def main (env : Env) (fs : Fs) (args : Args) : Except Err RunResult × List Ev :=
  let input := args.audio
  if input ∈ fs then
    if args.scoreOnly then
      let normalized := normalizedDest input
      let candidate := preferredOf args.outputDir (pyStem normalized.name)
      if candidate ∈ fs then
        convertAndRender env args fs input (some normalized) candidate []
      else (.error (.resumeMidiMissing candidate), [])
    else
      match preprocess_audio env fs input with
      | .error e => (.error e, [Ev.preprocessRun input])
      | .ok (normalized, _, fs1) =>
        match run_basic_pitch env fs1 normalized args.outputDir with
        | .error e => (.error e, [Ev.preprocessRun input, Ev.transcribeRun normalized])
        | .ok (midi, fs2) =>
          convertAndRender env args fs2 input (some normalized) midi
            [Ev.preprocessRun input, Ev.transcribeRun normalized]
  else (.error (.inputNotFound input), [])

/-- Exit code of the process: `raise SystemExit(main())` exits 0 on the
returned 0, and any uncaught exception or `SystemExit(str)` exits
non-zero (1). -/
def exitCode (r : Except Err RunResult) : Nat :=
  match r with
  | .error _ => 1
  | .ok _ => 0

/-! ### Lemmas on `pathlib` stem computation -/

theorem lastIdx_append_some {c : Char} {v : Name} {i : Nat}
    (h : lastIdx c v = some i) (u : Name) :
    lastIdx c (u ++ v) = some (u.length + i) := by
  induction u with
  | nil => simpa using h
  | cons a t ih =>
    simp only [List.cons_append, lastIdx, List.append_eq, ih, List.length_cons]
    exact congrArg some (by omega)

/-- Appending a fixed tail whose last dot sits strictly inside it: the
stem of `X ++ u` is `X` followed by the stem of `u`. -/
theorem pyStem_append {u : Name} {i : Nat} (h : lastIdx '.' u = some i)
    (h1 : 0 < i) (h2 : i + 1 < u.length) (X : Name) :
    pyStem (X ++ u) = X ++ u.take i := by
  unfold pyStem pySuffixIdx
  rw [lastIdx_append_some h]
  have hc : 0 < X.length + i ∧ X.length + i + 1 < (X ++ u).length := by
    simp only [List.length_append]; omega
  simp only [hc, and_self, if_true]
  exact List.take_append i

/-- Stem of any name ending in `".normalized.wav"` (last dot at offset 11). -/
theorem pyStem_normalizedWav (X : Name) :
    pyStem (X ++ (".normalized.wav").data) = X ++ (".normalized").data := by
  rw [pyStem_append (by decide : lastIdx '.' ((".normalized.wav").data) = some 11)
    (by decide) (by decide) X]
  rfl

/-- Stem of any name ending in `"_basic_pitch.mid"` (last dot at offset 12). -/
theorem pyStem_basicPitchMid (X : Name) :
    pyStem (X ++ ("_basic_pitch.mid").data) = X ++ ("_basic_pitch").data := by
  rw [pyStem_append (by decide : lastIdx '.' (("_basic_pitch.mid").data) = some 12)
    (by decide) (by decide) X]
  rfl

/-- Stem of any name ending in `".normalized_basic_pitch.mid"` (last dot
at offset 23). -/
theorem pyStem_normBasicPitchMid (X : Name) :
    pyStem (X ++ (".normalized_basic_pitch.mid").data)
      = X ++ (".normalized_basic_pitch").data := by
  rw [pyStem_append
    (by decide : lastIdx '.' ((".normalized_basic_pitch.mid").data) = some 23)
    (by decide) (by decide) X]
  rfl

/-- C1: for an input audio path with stem `S` and output directory `D`,
every artifact path is the stated pure function of `S` and `D` — the
NormalizedAudio is the sibling `S.normalized.wav`, the Transcription is
`D/S.normalized_basic_pitch.mid`, the InterchangeScore is
`D/S.normalized_basic_pitch.musicxml` and the RenderedDocument is
`D/S.normalized_basic_pitch.pdf`; the derivations consult nothing but the
two arguments (no randomness, no timestamps). -/
theorem C1_artifact_paths (p : FsPath) (D : List Char) :
    normalizedDest p = ⟨p.dir, pyStem p.name ++ (".normalized.wav").data⟩ ∧
    preferredMidi D (normalizedDest p)
      = ⟨D, pyStem p.name ++ (".normalized_basic_pitch.mid").data⟩ ∧
    xmlDest D (preferredMidi D (normalizedDest p))
      = ⟨D, pyStem p.name ++ (".normalized_basic_pitch.musicxml").data⟩ ∧
    pdfDest D (preferredMidi D (normalizedDest p))
      = ⟨D, pyStem p.name ++ (".normalized_basic_pitch.pdf").data⟩ := by
  have h2 : preferredMidi D (normalizedDest p)
      = ⟨D, pyStem p.name ++ (".normalized_basic_pitch.mid").data⟩ := by
    show preferredOf D (pyStem (pyStem p.name ++ (".normalized.wav").data)) = _
    rw [pyStem_normalizedWav]
    show FsPath.mk D ((pyStem p.name ++ (".normalized").data) ++ ("_basic_pitch.mid").data) = _
    rw [List.append_assoc]
    rfl
  refine ⟨rfl, h2, ?_, ?_⟩
  · show FsPath.mk D (pyStem (preferredMidi D (normalizedDest p)).name ++ (".musicxml").data) = _
    rw [h2]
    show FsPath.mk D (pyStem (pyStem p.name ++ (".normalized_basic_pitch.mid").data)
      ++ (".musicxml").data) = _
    rw [pyStem_normBasicPitchMid, List.append_assoc]
    rfl
  · show FsPath.mk D (pyStem (preferredMidi D (normalizedDest p)).name ++ (".pdf").data) = _
    rw [h2]
    show FsPath.mk D (pyStem (pyStem p.name ++ (".normalized_basic_pitch.mid").data)
      ++ (".pdf").data) = _
    rw [pyStem_normBasicPitchMid, List.append_assoc]
    rfl

/-- C4: the external-tool wrapper returns success exactly when the
subprocess exits 0 (output-file existence is never consulted: the
function reads no filesystem at all); an absent executable and a
non-zero exit (crash signals included) are treated identically — a
warning event and `false`, never an exception (the function is total). -/
theorem C4_muse_wrapper (env : Env) (input output : FsPath) (cmd : List Char) :
    ((run_musescore_convert env input output cmd).1 = true
      ↔ env.muse cmd input output = .exited 0) ∧
    (env.muse cmd input output = .notFound →
      run_musescore_convert env input output cmd
        = (false, [Ev.museInvoke cmd input output, Ev.warnMuseNotFound cmd])) ∧
    (∀ c : Int, c ≠ 0 → env.muse cmd input output = .exited c →
      run_musescore_convert env input output cmd
        = (false, [Ev.museInvoke cmd input output, Ev.warnMuseFailed c])) := by
  unfold run_musescore_convert
  rcases h : env.muse cmd input output with _ | c
  · simp [h]
  · by_cases hc : c = 0
    · simp [h, hc]
      omega
    · simp [h, hc]

/-- C3: in the Score Converter the music21 fallback is attempted if and
only if the MuseScore primary strategy failed; on a primary success the
fallback is never invoked and the conversion succeeds; and when the
fallback itself raises (in `converter.parse` or `score.write`), the
error propagates — the result is the fatal `m21Error`, with no third
strategy. -/
theorem C3_converter_fallback (env : Env) (midi xml : FsPath) (cmd : List Char) :
    ((run_musescore_convert env midi xml cmd).1 = true →
      (midi_to_musicxml env midi xml cmd).1 = .ok xml ∧
        Ev.m21Fallback midi ∉ (midi_to_musicxml env midi xml cmd).2) ∧
    ((run_musescore_convert env midi xml cmd).1 = false →
      Ev.m21Fallback midi ∈ (midi_to_musicxml env midi xml cmd).2) ∧
    ((midi_to_musicxml env midi xml cmd).1 = .error .m21Error ↔
      (run_musescore_convert env midi xml cmd).1 = false ∧
        (env.m21parse midi = .error () ∨
          ∃ s, env.m21parse midi = .ok s ∧ env.m21write s xml = .error ())) ∧
    (∀ e, (midi_to_musicxml env midi xml cmd).1 = .error e → e = .m21Error) := by
  unfold midi_to_musicxml run_musescore_convert
  rcases h : env.muse cmd midi xml with _ | c
  · rcases hp : env.m21parse midi with e | s
    · simp [h, hp]
    · rcases hw : env.m21write s xml with e2 | u
      · simp [h, hp, hw]
      · simp [h, hp, hw]
  · by_cases hc : c = 0
    · simp [h, hc]
    · rcases hp : env.m21parse midi with e | s
      · simp [h, hc, hp]
      · rcases hw : env.m21write s xml with e2 | u
        · simp [h, hc, hp, hw]
        · simp [h, hc, hp, hw]

/-- Scaling every sample by a non-negative constant scales the peak. -/
theorem maxAbs_map_mul (c : ℚ) (hc : 0 ≤ c) (y : List ℚ) :
    maxAbs (y.map (fun v => c * v)) = c * maxAbs y := by
  induction y with
  | nil => simp [maxAbs]
  | cons a t ih =>
    simp only [maxAbs, List.map_cons, List.foldr_cons] at ih ⊢
    rw [ih, abs_mul, abs_of_nonneg hc, mul_max_of_nonneg _ _ hc]

/-- C6: for every non-empty loaded waveform, the Preprocessor scales the
waveform so its peak amplitude becomes exactly 0.95 of full scale when
the input peak is strictly positive, and passes an all-silence waveform
through unscaled (no division by zero); in either case
`preprocess_audio` writes `normalizeWave y` to the derived output path. -/
theorem C6_peak_normalization (y : List ℚ) (hne : y ≠ []) :
    (0 < maxAbs y → maxAbs (normalizeWave y) = 95 / 100) ∧
    (maxAbs y = 0 → normalizeWave y = y) ∧
    (∀ (env : Env) (fs : Fs) (input : FsPath), env.load input = y →
      preprocess_audio env fs input
        = .ok (normalizedDest input, normalizeWave y, normalizedDest input :: fs)) := by
  refine ⟨?_, ?_, ?_⟩
  · intro h
    have hzero : maxAbs y ≠ 0 := ne_of_gt h
    unfold normalizeWave
    rw [if_pos h]
    rw [List.map_eq_map_iff.mpr
      (fun v _ => by ring :
        ∀ v ∈ y, (95 / 100 : ℚ) * v / maxAbs y = ((95 / 100 : ℚ) / maxAbs y) * v)]
    rw [maxAbs_map_mul _ (div_nonneg (by norm_num) h.le)]
    exact div_mul_cancel₀ _ hzero
  · intro h0
    unfold normalizeWave
    rw [h0]
    simp
  · intro env fs input hl
    unfold preprocess_audio
    rw [hl, if_neg (by simpa [List.length_eq_zero] using hne)]

/-- C7: the Preprocessor raises (aborting the run) if and only if the
loaded waveform has zero samples; with at least one sample it always
proceeds to write the normalized output; and in a full run the empty
waveform turns into the fatal abort of `main`. -/
theorem C7_empty_input (env : Env) (fs : Fs) (input : FsPath) :
    (preprocess_audio env fs input = .error (.emptyAudio input) ↔ env.load input = []) ∧
    (∀ e, preprocess_audio env fs input = .error e → e = .emptyAudio input) ∧
    (env.load input ≠ [] →
      preprocess_audio env fs input
        = .ok (normalizedDest input, normalizeWave (env.load input),
            normalizedDest input :: fs)) ∧
    (∀ args : Args, args.audio = input → args.scoreOnly = false → input ∈ fs →
      env.load input = [] → (main env fs args).1 = .error (.emptyAudio input)) := by
  by_cases h : env.load input = []
  · refine ⟨by simp [preprocess_audio, h], ?_, by simp [h], ?_⟩
    · intro e he
      simp [preprocess_audio, h] at he
      exact he.symm
    · intro args ha hso hin _
      subst ha
      simp [main, hso, hin, preprocess_audio, h]
  · have hlen : ¬(env.load input).length = 0 := by
      simpa [List.length_eq_zero] using h
    refine ⟨?_, ?_, fun _ => by simp [preprocess_audio, hlen], ?_⟩
    · simp [preprocess_audio, hlen, h]
    · intro e he
      simp [preprocess_audio, hlen] at he
    · intro args ha hso hin hl
      exact absurd hl h

/-- Membership in the sorted glob candidates: exactly the existing files
of the output directory whose name matches `f"{stem}*.mid"`. -/
theorem mem_globCandidates {p : FsPath} {fs2 : Fs} {outDir : List Char} {stem : Name} :
    p ∈ globCandidates fs2 outDir stem ↔
      p ∈ fs2 ∧ p.dir = outDir ∧ globMatchMid stem p.name = true := by
  unfold globCandidates
  rw [(List.perm_insertionSort _ _).mem_iff, List.mem_filter]
  simp

/-- The glob search is empty exactly when no existing file of the output
directory matches. -/
theorem globCandidates_eq_nil {fs2 : Fs} {outDir : List Char} {stem : Name} :
    globCandidates fs2 outDir stem = [] ↔
      ∀ p ∈ fs2, ¬(p.dir = outDir ∧ globMatchMid stem p.name = true) := by
  constructor
  · intro h p hp hpred
    have : p ∈ globCandidates fs2 outDir stem :=
      mem_globCandidates.mpr ⟨hp, hpred⟩
    simp [h] at this
  · intro h
    rcases hL : globCandidates fs2 outDir stem with _ | ⟨c, rest⟩
    · rfl
    · have hc : c ∈ globCandidates fs2 outDir stem := by rw [hL]; exact List.mem_cons_self c rest
      rcases mem_globCandidates.mp hc with ⟨h1, h2⟩
      exact absurd h2 (h c h1)

/-- C8: before the external transcription capability is invoked, every
conflicting stale artifact `<stem>_basic_pitch.<ext>` for
`ext ∈ (mid, npz, csv, wav)` has been deleted from the output directory,
whatever the prior filesystem state was; `run_basic_pitch` hands the
`predict` oracle exactly that cleaned filesystem, and the cleanup list
covers the expected MIDI name itself. -/
theorem C8_stale_cleanup (env : Env) (fs : Fs) (wav : FsPath) (outDir : List Char) :
    (∀ e ∈ bpExts,
      bpArtifact outDir (pyStem wav.name) e ∉ bpCleanup fs outDir (pyStem wav.name)) ∧
    (env.bpAvailable = true →
      run_basic_pitch env fs wav outDir
        = bpLocate (env.predict wav outDir (bpCleanup fs outDir (pyStem wav.name)))
            wav outDir (pyStem wav.name)) ∧
    bpArtifact outDir (pyStem wav.name) (("mid").data)
      = preferredOf outDir (pyStem wav.name) := by
  refine ⟨?_, ?_, ?_⟩
  · intro e he hmem
    rw [bpCleanup, List.mem_filter] at hmem
    exact (of_decide_eq_true hmem.2) e he rfl
  · intro h
    simp [run_basic_pitch, h]
  · rw [bpArtifact, preferredOf, List.append_assoc]
    rfl

/-- C9: after the invocation the Transcriber returns the exact expected
derived path when a file exists there; otherwise whatever it returns is
an existing file of the output directory matching the prefix glob
`stem*.mid` (and such a match makes it return one); and it raises the
output-missing error if and only if neither the exact name nor any glob
candidate exists. -/
theorem C9_midi_location (fs2 : Fs) (wav : FsPath) (outDir : List Char) (stem : Name) :
    (preferredOf outDir stem ∈ fs2 →
      bpLocate fs2 wav outDir stem = .ok (preferredOf outDir stem, fs2)) ∧
    (preferredOf outDir stem ∉ fs2 →
      ∀ c fsr, bpLocate fs2 wav outDir stem = .ok (c, fsr) →
        fsr = fs2 ∧ c ∈ fs2 ∧ c.dir = outDir ∧ globMatchMid stem c.name = true) ∧
    (preferredOf outDir stem ∉ fs2 →
      (∃ p ∈ fs2, p.dir = outDir ∧ globMatchMid stem p.name = true) →
      ∃ c, bpLocate fs2 wav outDir stem = .ok (c, fs2)) ∧
    (bpLocate fs2 wav outDir stem = .error (.midiMissing wav) ↔
      preferredOf outDir stem ∉ fs2 ∧
        ∀ p ∈ fs2, ¬(p.dir = outDir ∧ globMatchMid stem p.name = true)) := by
  by_cases hp : preferredOf outDir stem ∈ fs2
  · refine ⟨fun _ => by simp [bpLocate, hp], fun hnp => absurd hp hnp,
      fun hnp => absurd hp hnp, ?_⟩
    simp [bpLocate, hp]
  · rcases hL : globCandidates fs2 outDir stem with _ | ⟨c0, rest⟩
    · have hnone := globCandidates_eq_nil.mp hL
      refine ⟨fun h => absurd h hp, ?_, ?_, ?_⟩
      · intro _ c fsr hok
        simp [bpLocate, hp, hL] at hok
      · rintro _ ⟨p, hpfs, hpred⟩
        exact absurd hpred (hnone p hpfs)
      · have hres : bpLocate fs2 wav outDir stem = .error (.midiMissing wav) := by
          simp [bpLocate, hp, hL]
        exact ⟨fun _ => ⟨hp, hnone⟩, fun _ => hres⟩
    · have hc0 : c0 ∈ globCandidates fs2 outDir stem := by
        rw [hL]; exact List.mem_cons_self c0 rest
      rcases mem_globCandidates.mp hc0 with ⟨h1, h2, h3⟩
      refine ⟨fun h => absurd h hp, ?_, ?_, ?_⟩
      · intro _ c fsr hok
        simp [bpLocate, hp, hL] at hok
        rcases hok with ⟨hc, hfs⟩
        subst hc; subst hfs
        exact ⟨rfl, h1, h2, h3⟩
      · intro _ _
        exact ⟨c0, by simp [bpLocate, hp, hL]⟩
      · constructor
        · intro h
          simp [bpLocate, hp, hL] at h
        · rintro ⟨-, hnone⟩
          exact absurd ⟨h2, h3⟩ (hnone c0 h1)

/-- Marker events of the Preprocessor and Transcriber stages. -/
def isStage12 : Ev → Bool
  | .preprocessRun _ => true
  | .transcribeRun _ => true
  | _ => false

/-- The wrapper's warning messages. -/
def isMuseWarn : Ev → Bool
  | .warnMuseNotFound _ => true
  | .warnMuseFailed _ => true
  | _ => false

/-- The MuseScore wrapper never emits a stage-1/2 marker. -/
theorem run_musescore_no_stage12 (env : Env) (i o : FsPath) (cmd : List Char) :
    ∀ ev ∈ (run_musescore_convert env i o cmd).2, isStage12 ev = false := by
  unfold run_musescore_convert
  rcases env.muse cmd i o with _ | c
  · simp [isStage12]
  · by_cases hc : c = 0 <;> simp [hc, isStage12]

/-- A failing wrapper invocation logs a warning. -/
theorem muse_fail_warn (env : Env) (i o : FsPath) (cmd : List Char) :
    (run_musescore_convert env i o cmd).1 = false →
    ∃ ev ∈ (run_musescore_convert env i o cmd).2, isMuseWarn ev = true := by
  unfold run_musescore_convert
  rcases env.muse cmd i o with _ | c
  · exact fun _ => ⟨.warnMuseNotFound cmd, by simp, rfl⟩
  · by_cases hc : c = 0
    · simp [hc]
    · exact fun _ => ⟨.warnMuseFailed c, by simp [hc], rfl⟩

/-- Trace of the Score Converter: the wrapper's log, plus the fallback
marker exactly when the primary strategy failed. -/
theorem midi_to_musicxml_trace (env : Env) (midi xml : FsPath) (cmd : List Char) :
    (midi_to_musicxml env midi xml cmd).2
      = (run_musescore_convert env midi xml cmd).2
        ++ (if (run_musescore_convert env midi xml cmd).1 then []
            else [Ev.m21Fallback midi]) := by
  unfold midi_to_musicxml
  rcases hw : run_musescore_convert env midi xml cmd with ⟨ok, evs⟩
  cases ok
  · rcases hp : env.m21parse midi with e | s
    · simp
    · rcases hwr : env.m21write s xml with e2 | u <;> simp [hwr]
  · simp

/-- The Score Converter never emits a stage-1/2 marker. -/
theorem midi_to_musicxml_no_stage12 (env : Env) (midi xml : FsPath) (cmd : List Char) :
    ∀ ev ∈ (midi_to_musicxml env midi xml cmd).2, isStage12 ev = false := by
  intro ev hev
  rw [midi_to_musicxml_trace] at hev
  rcases List.mem_append.mp hev with h | h
  · exact run_musescore_no_stage12 env midi xml cmd ev h
  · cases hb : (run_musescore_convert env midi xml cmd).1
    · rw [hb] at h
      simp at h
      subst h; rfl
    · rw [hb] at h
      simp at h

/-- The Renderer is the wrapper with its Boolean result mapped to an
optional output path; its trace is the wrapper's. -/
theorem musicxml_to_pdf_eq (env : Env) (xml pdf : FsPath) (cmd : List Char) :
    musicxml_to_pdf env xml pdf cmd
      = (if (run_musescore_convert env xml pdf cmd).1 then some pdf else none,
         (run_musescore_convert env xml pdf cmd).2) := by
  unfold musicxml_to_pdf
  rcases hw : run_musescore_convert env xml pdf cmd with ⟨ok, evs⟩
  simp

/-- The Renderer never emits a stage-1/2 marker. -/
theorem musicxml_to_pdf_no_stage12 (env : Env) (xml pdf : FsPath) (cmd : List Char) :
    ∀ ev ∈ (musicxml_to_pdf env xml pdf cmd).2, isStage12 ev = false := by
  intro ev hev
  rw [musicxml_to_pdf_eq] at hev
  exact run_musescore_no_stage12 env xml pdf cmd ev hev

/-- Stages 3-4 when the Score Converter fails fatally: the error
propagates out of `main` unchanged. -/
theorem convertAndRender_error (env : Env) (args : Args) (fs : Fs) (input : FsPath)
    (normalized : Option FsPath) (midi : FsPath) (evs0 : List Ev) (e : Err)
    (h : (midi_to_musicxml env midi (xmlDest args.outputDir midi) args.musescoreCmd).1
      = .error e) :
    convertAndRender env args fs input normalized midi evs0
      = (.error e, evs0
          ++ (midi_to_musicxml env midi (xmlDest args.outputDir midi) args.musescoreCmd).2) := by
  unfold convertAndRender
  rcases hm : midi_to_musicxml env midi (xmlDest args.outputDir midi) args.musescoreCmd
    with ⟨res, evs⟩
  rw [hm] at h
  simp at h
  subst h
  simp

/-- Stages 3-4 when the Score Converter succeeds: the report and the
trace, with the Renderer consulted exactly when `--no-pdf` is absent. -/
theorem convertAndRender_ok (env : Env) (args : Args) (fs : Fs) (input : FsPath)
    (normalized : Option FsPath) (midi : FsPath) (evs0 : List Ev) (x : FsPath)
    (h : (midi_to_musicxml env midi (xmlDest args.outputDir midi) args.musescoreCmd).1
      = .ok x) :
    convertAndRender env args fs input normalized midi evs0
      = (.ok ⟨[ReportLine.inputLine input]
            ++ (match normalized with
                | some n => [ReportLine.normalizedLine n]
                | none => [])
            ++ [ReportLine.midiLine midi, ReportLine.musicxmlLine (xmlDest args.outputDir midi)]
            ++ (match (if args.noPdf then (none, [])
                  else musicxml_to_pdf env (xmlDest args.outputDir midi)
                    (pdfDest args.outputDir midi) args.musescoreCmd).1 with
                | some p => [ReportLine.pdfLine p]
                | none => [ReportLine.pdfNotGenerated]), fs⟩,
         evs0 ++ (midi_to_musicxml env midi (xmlDest args.outputDir midi) args.musescoreCmd).2
           ++ (if args.noPdf then (none, [])
               else musicxml_to_pdf env (xmlDest args.outputDir midi)
                 (pdfDest args.outputDir midi) args.musescoreCmd).2) := by
  unfold convertAndRender
  rcases hm : midi_to_musicxml env midi (xmlDest args.outputDir midi) args.musescoreCmd
    with ⟨res, evs⟩
  rw [hm] at h
  simp at h
  subst h
  simp [List.append_assoc]

/-- Stages 3-4 add no stage-1/2 marker beyond the events they were
handed. -/
theorem convertAndRender_no_stage12 (env : Env) (args : Args) (fs : Fs)
    (input : FsPath) (normalized : Option FsPath) (midi : FsPath) (evs0 : List Ev) :
    ∀ ev ∈ (convertAndRender env args fs input normalized midi evs0).2,
      ev ∈ evs0 ∨ isStage12 ev = false := by
  have h3 := midi_to_musicxml_no_stage12 env midi (xmlDest args.outputDir midi)
    args.musescoreCmd
  intro ev hev
  rcases hm : (midi_to_musicxml env midi (xmlDest args.outputDir midi)
      args.musescoreCmd).1 with e | x
  · rw [convertAndRender_error env args fs input normalized midi evs0 e hm] at hev
    rcases List.mem_append.mp hev with h | h
    · exact Or.inl h
    · exact Or.inr (h3 ev h)
  · rw [convertAndRender_ok env args fs input normalized midi evs0 x hm] at hev
    rcases List.mem_append.mp hev with h | h
    · rcases List.mem_append.mp h with h2 | h2
      · exact Or.inl h2
      · exact Or.inr (h3 ev h2)
    · cases hnp : args.noPdf
      · rw [hnp] at h
        simp only [if_neg Bool.false_ne_true] at h
        exact Or.inr (musicxml_to_pdf_no_stage12 env (xmlDest args.outputDir midi)
          (pdfDest args.outputDir midi) args.musescoreCmd ev h)
      · rw [hnp] at h
        simp at h

/-- The expected Transcription path recomputed from the RawAudio path, as
both `run_basic_pitch` (via the normalized stem) and the `--score-only`
branch derive it. -/
theorem preferredMidi_normalizedDest (p : FsPath) (D : List Char) :
    preferredMidi D (normalizedDest p)
      = ⟨D, pyStem p.name ++ (".normalized_basic_pitch.mid").data⟩ := by
  show preferredOf D (pyStem (pyStem p.name ++ (".normalized.wav").data)) = _
  rw [pyStem_normalizedWav]
  show FsPath.mk D ((pyStem p.name ++ (".normalized").data) ++ ("_basic_pitch.mid").data) = _
  rw [List.append_assoc]
  rfl

/-- C2: in resume mode the orchestrator recomputes the NormalizedAudio and
Transcription paths from the RawAudio path without ever running the
Preprocessor or Transcriber (no stage-1/2 event appears in the trace);
when the expected Transcription `D/S.normalized_basic_pitch.mid` is
absent it aborts with a non-zero exit carrying that very path, and when
it is present the run proceeds into exactly the shared Score
Converter/Renderer tail `convertAndRender` of a full run. -/
theorem C2_resume (env : Env) (fs : Fs) (args : Args)
    (h1 : args.scoreOnly = true) (h2 : args.audio ∈ fs) :
    (preferredOf args.outputDir (pyStem (normalizedDest args.audio).name) ∉ fs →
      main env fs args
        = (.error (.resumeMidiMissing (preferredOf args.outputDir
            (pyStem (normalizedDest args.audio).name))), []) ∧
        exitCode (main env fs args).1 = 1) ∧
    (preferredOf args.outputDir (pyStem (normalizedDest args.audio).name) ∈ fs →
      main env fs args
        = convertAndRender env args fs args.audio (some (normalizedDest args.audio))
            (preferredOf args.outputDir (pyStem (normalizedDest args.audio).name)) []) ∧
    (∀ ev ∈ (main env fs args).2, isStage12 ev = false) ∧
    preferredOf args.outputDir (pyStem (normalizedDest args.audio).name)
      = ⟨args.outputDir, pyStem args.audio.name ++ (".normalized_basic_pitch.mid").data⟩ := by
  by_cases hc : preferredOf args.outputDir (pyStem (normalizedDest args.audio).name) ∈ fs
  · have hm : main env fs args
        = convertAndRender env args fs args.audio (some (normalizedDest args.audio))
            (preferredOf args.outputDir (pyStem (normalizedDest args.audio).name)) [] := by
      simp [main, h1, h2, hc]
    refine ⟨fun hn => absurd hc hn, fun _ => hm, ?_,
      preferredMidi_normalizedDest args.audio args.outputDir⟩
    intro ev hev
    rw [hm] at hev
    rcases convertAndRender_no_stage12 env args fs args.audio
        (some (normalizedDest args.audio))
        (preferredOf args.outputDir (pyStem (normalizedDest args.audio).name)) [] ev hev with
      h | h
    · simp at h
    · exact h
  · have hm : main env fs args
        = (.error (.resumeMidiMissing (preferredOf args.outputDir
            (pyStem (normalizedDest args.audio).name))), []) := by
      simp [main, h1, h2, hc]
    refine ⟨fun _ => ⟨hm, by rw [hm]; rfl⟩, fun h => absurd h hc, ?_,
      preferredMidi_normalizedDest args.audio args.outputDir⟩
    intro ev hev
    rw [hm] at hev
    simp at hev

/-- C10: the input-existence check precedes the resume branch, so even in
resume mode — which never reads the audio file — a missing RawAudio path
aborts the run with a non-zero exit reporting the input as not found. -/
theorem C10_input_precondition (env : Env) (fs : Fs) (args : Args)
    (h1 : args.scoreOnly = true) (h2 : args.audio ∉ fs) :
    main env fs args = (.error (.inputNotFound args.audio), []) ∧
    exitCode (main env fs args).1 = 1 := by
  have hm : main env fs args = (.error (.inputNotFound args.audio), []) := by
    simp [main, h2]
  exact ⟨hm, by rw [hm]; rfl⟩

/-- C5: the Renderer stage is best-effort — on any failure of the
external tool it logs a warning and returns no document instead of
raising, the run still completes with exit code 0 and the final report
prints the PDF line as "(not generated)"; on success it returns the
destination path and the report names it. Stated for any run that
reaches the Renderer (the Score Converter succeeded and `--no-pdf` is
absent). -/
theorem C5_renderer_best_effort (env : Env) (args : Args) (fs : Fs) (input : FsPath)
    (normalized : Option FsPath) (midi : FsPath) (evs0 : List Ev) (x : FsPath)
    (hok : (midi_to_musicxml env midi (xmlDest args.outputDir midi) args.musescoreCmd).1
      = .ok x)
    (hnp : args.noPdf = false) :
    (∀ xml pdf cmd, (run_musescore_convert env xml pdf cmd).1 = false →
      (musicxml_to_pdf env xml pdf cmd).1 = none ∧
        ∃ ev ∈ (musicxml_to_pdf env xml pdf cmd).2, isMuseWarn ev = true) ∧
    (∀ xml pdf cmd, (run_musescore_convert env xml pdf cmd).1 = true →
      (musicxml_to_pdf env xml pdf cmd).1 = some pdf) ∧
    (∃ r : RunResult,
      (convertAndRender env args fs input normalized midi evs0).1 = .ok r ∧
      exitCode (convertAndRender env args fs input normalized midi evs0).1 = 0 ∧
      ((run_musescore_convert env (xmlDest args.outputDir midi)
          (pdfDest args.outputDir midi) args.musescoreCmd).1 = false →
        ReportLine.pdfNotGenerated ∈ r.report ∧ ∀ q, ReportLine.pdfLine q ∉ r.report) ∧
      ((run_musescore_convert env (xmlDest args.outputDir midi)
          (pdfDest args.outputDir midi) args.musescoreCmd).1 = true →
        ReportLine.pdfLine (pdfDest args.outputDir midi) ∈ r.report ∧
          ReportLine.pdfNotGenerated ∉ r.report)) := by
  refine ⟨?_, ?_, ?_⟩
  · intro xml pdf cmd hf
    constructor
    · rw [musicxml_to_pdf_eq]
      simp [hf]
    · rcases muse_fail_warn env xml pdf cmd hf with ⟨ev, hev, hw⟩
      exact ⟨ev, by rw [musicxml_to_pdf_eq]; exact hev, hw⟩
  · intro xml pdf cmd ht
    rw [musicxml_to_pdf_eq]
    simp [ht]
  · rcases normalized with _ | nrm
    · rw [convertAndRender_ok env args fs input none midi evs0 x hok]
      refine ⟨_, rfl, rfl, fun hf => ?_, fun ht => ?_⟩
      · simp [hnp, musicxml_to_pdf_eq, hf]
      · simp [hnp, musicxml_to_pdf_eq, ht]
    · rw [convertAndRender_ok env args fs input (some nrm) midi evs0 x hok]
      refine ⟨_, rfl, rfl, fun hf => ?_, fun ht => ?_⟩
      · simp [hnp, musicxml_to_pdf_eq, hf]
      · simp [hnp, musicxml_to_pdf_eq, ht]

/-! ### Concrete fixtures used to instantiate the theorems -/

/-- A concrete input path `d/foo.wav`. -/
def fileA : FsPath := ⟨("d").data, ("foo.wav").data⟩

/-- A concrete output directory `b`. -/
def dirB : List Char := ("b").data

/-- A concrete external world: empty loads, basic_pitch importable and a
no-op `predict`, a MuseScore CLI that always exits 0, a music21 that
never raises. -/
def env0 : Env :=
  { load := fun _ => []
    bpAvailable := true
    predict := fun _ _ fs => fs
    muse := fun _ _ _ => .exited 0
    m21parse := fun _ => .ok 0
    m21write := fun _ _ => .ok () }

/-- Concrete resume-mode arguments (`--score-only`). -/
def argsResume : Args := ⟨fileA, dirB, ("mscore").data, false, true⟩

/-- Concrete full-run arguments. -/
def argsFull : Args := ⟨fileA, dirB, ("mscore").data, false, false⟩

/-- A concrete Transcription path `b/foo.normalized_basic_pitch.mid`. -/
def midi0 : FsPath := ⟨dirB, ("foo.normalized_basic_pitch.mid").data⟩

/-- Witness for C2 at a concrete resume-mode run whose Transcription
artifact is absent: the run aborts with the expected path. -/
theorem C2_resume_wit :
    main env0 [fileA] argsResume
      = (.error (.resumeMidiMissing (preferredOf dirB
          (pyStem (normalizedDest fileA).name))), []) ∧
    exitCode (main env0 [fileA] argsResume).1 = 1 :=
  (C2_resume env0 [fileA] argsResume rfl (by decide)).1 (by decide)

/-- Witness for C10 at a concrete resume-mode run whose input audio is
absent. -/
theorem C10_input_wit :
    main env0 [] argsResume = (.error (.inputNotFound fileA), []) ∧
    exitCode (main env0 [] argsResume).1 = 1 :=
  C10_input_precondition env0 [] argsResume rfl (by decide)

/-- Witness for C6 at the concrete one-sample waveform `[1]`. -/
theorem C6_peak_wit :
    (0 < maxAbs [(1 : ℚ)] → maxAbs (normalizeWave [(1 : ℚ)]) = 95 / 100) ∧
    (maxAbs [(1 : ℚ)] = 0 → normalizeWave [(1 : ℚ)] = [(1 : ℚ)]) ∧
    (∀ (env : Env) (fs : Fs) (input : FsPath), env.load input = [(1 : ℚ)] →
      preprocess_audio env fs input
        = .ok (normalizedDest input, normalizeWave [(1 : ℚ)],
            normalizedDest input :: fs)) :=
  C6_peak_normalization [(1 : ℚ)] (by simp)

/-- Witness for C5 at a concrete run reaching the Renderer. -/
theorem C5_renderer_wit :
    (∀ xml pdf cmd, (run_musescore_convert env0 xml pdf cmd).1 = false →
      (musicxml_to_pdf env0 xml pdf cmd).1 = none ∧
        ∃ ev ∈ (musicxml_to_pdf env0 xml pdf cmd).2, isMuseWarn ev = true) ∧
    (∀ xml pdf cmd, (run_musescore_convert env0 xml pdf cmd).1 = true →
      (musicxml_to_pdf env0 xml pdf cmd).1 = some pdf) ∧
    (∃ r : RunResult,
      (convertAndRender env0 argsFull [] fileA none midi0 []).1 = .ok r ∧
      exitCode (convertAndRender env0 argsFull [] fileA none midi0 []).1 = 0 ∧
      ((run_musescore_convert env0 (xmlDest argsFull.outputDir midi0)
          (pdfDest argsFull.outputDir midi0) argsFull.musescoreCmd).1 = false →
        ReportLine.pdfNotGenerated ∈ r.report ∧ ∀ q, ReportLine.pdfLine q ∉ r.report) ∧
      ((run_musescore_convert env0 (xmlDest argsFull.outputDir midi0)
          (pdfDest argsFull.outputDir midi0) argsFull.musescoreCmd).1 = true →
        ReportLine.pdfLine (pdfDest argsFull.outputDir midi0) ∈ r.report ∧
          ReportLine.pdfNotGenerated ∉ r.report)) :=
  C5_renderer_best_effort env0 argsFull [] fileA none midi0 []
    (xmlDest argsFull.outputDir midi0) rfl rfl

end AudioToScore
